import Mathlib

/-!
# Verification of the kart-js Table Dataset V3 engine

Shallow embedding of the dataset engine of the kart-js repository
(path-structure encoding, legend hashing, working-copy change tracking,
diff synthesis, typed accessors, raw-feature projection, deep freezing)
together with proofs and refutations of the specified properties.

External primitives (MessagePack codec, SHA-256) are collaborators outside
the repository; they appear as explicit function parameters, and theorems
quantify over them.  Closed examples instantiate them with clearly named
stand-ins, or with `msgpackEncode`, a Lean transcription of the byte
layout the `@msgpack/msgpack` encoder produces on the value domain used
by the examples.
-/

namespace KartJs

/-! ## JS string/byte helpers

`bytesToHex`, `bytesToBase64` model `Uint8Array.prototype.toHex` and
`Uint8Array.prototype.toBase64` (standard alphabet, `=` padding).
`jsPadStart`, `jsTake` model `String.prototype.padStart` and
`String.prototype.slice(0, n)`. -/

def hexDigitChar (n : Nat) : Char :=
  "0123456789abcdef".toList.getD n '0'

def b64Char (n : Nat) : Char :=
  "ABCDEFGHIJKLMNOPQRSTUVWXYZabcdefghijklmnopqrstuvwxyz0123456789+/".toList.getD n 'A'

def bytesToHex (bs : List Nat) : String :=
  String.mk (bs.foldr (fun b acc => hexDigitChar (b / 16 % 16) :: hexDigitChar (b % 16) :: acc) [])

def bytesToBase64 : List Nat → String
  | [] => ""
  | [b1] =>
      String.mk [b64Char (b1 / 4 % 64), b64Char (b1 % 4 * 16), '=', '=']
  | [b1, b2] =>
      String.mk [b64Char (b1 / 4 % 64), b64Char (b1 % 4 * 16 + b2 / 16), b64Char (b2 % 16 * 4), '=']
  | b1 :: b2 :: b3 :: rest =>
      String.mk [b64Char (b1 / 4 % 64), b64Char (b1 % 4 * 16 + b2 / 16),
        b64Char (b2 % 16 * 4 + b3 / 64), b64Char (b3 % 64)] ++ bytesToBase64 rest

def jsPadStart (s : String) (n : Nat) (c : Char) : String :=
  String.mk (List.replicate (n - s.length) c) ++ s

def jsTake (s : String) (n : Nat) : String :=
  String.mk (s.toList.take n)

/-! ## JS values and geometries

One value type covers the JavaScript values the engine manipulates.
`nonIntNum` abstracts a finite JS number that is not an integer (its
magnitude is irrelevant to every claim). -/

structure Geometry where
  type : String
  coordinates : List Int
deriving DecidableEq, Repr

inductive JsValue where
  | undef
  | null
  | boolV (b : Bool)
  | intNum (n : Int)
  | nonIntNum
  | bigIntV (n : Int)
  | strV (s : String)
  | geomV (g : Geometry)
deriving DecidableEq, Repr

/-- `typeof v === 'bigint' || Number.isInteger(v)` (the `int`-scheme guard). -/
def JsValue.isIntegerPk : JsValue → Bool
  | .bigIntV _ => true
  | .intNum _ => true
  | _ => false

/-- `BigInt(v)` on a value that passed `isIntegerPk`. -/
def JsValue.toBigInt : JsValue → Int
  | .bigIntV n => n
  | .intNum n => n
  | _ => 0

/-! ## PathStructure (src/lib/table-dataset-v3/PathStructure.ts) -/

inductive PsScheme where
  | int
  | msgpackHash
deriving DecidableEq, Repr

inductive PsEncoding where
  | hex
  | base64
deriving DecidableEq, Repr

structure PathStructure where
  scheme : PsScheme
  branches : Nat
  levels : Nat
  encoding : PsEncoding
deriving DecidableEq, Repr

/-- The zod refinement on `path-structure.json`: positive levels, branches
from {16,64,256} compatible with the encoding. -/
def PathStructure.validConfig (ps : PathStructure) : Prop :=
  1 ≤ ps.levels ∧
    ((ps.encoding = .base64 ∧ ps.branches = 64) ∨
      (ps.encoding = .hex ∧ (ps.branches = 16 ∨ ps.branches = 256)))

instance (ps : PathStructure) : Decidable ps.validConfig := by
  unfold PathStructure.validConfig
  infer_instance

/-- `charSlash`: inserts a `/` after each character ("abc" becomes "a/b/c/"). -/
def charSlash (s : String) : String :=
  String.mk (s.toList.foldr (fun c acc => c :: '/' :: acc) [])

/-- `replaceAll('=', '')` on a base64 string. -/
def stripEquals (s : String) : String :=
  String.mk (s.toList.filter (fun c => c ≠ '='))

/-- Fuel-driven big-endian digit extraction (structural recursion so the
kernel can evaluate it; `fuel ≥ n` makes it total on the inputs used). -/
def digitsAux (base : Nat) : Nat → Nat → List Nat
  | 0, _ => []
  | fuel + 1, n => if n = 0 then [] else digitsAux base fuel (n / base) ++ [n % base]

/-- Big-endian base-16 digit list of a natural (the `while (integer > 0n)`
loop of `bigIntToHex`). -/
def hexDigitsOfNat (n : Nat) : List Nat := digitsAux 16 n n

/-- Big-endian base-64 digit list of a natural (the `while (integer > 0n)`
loop of `bigIntTobase64`). -/
def b64DigitsOfNat (n : Nat) : List Nat := digitsAux 64 n n

lemma digitsAux_mono (base : Nat) (hb : 1 < base) :
    ∀ f₁ : Nat, ∀ f₂ n : Nat, n ≤ f₁ → n ≤ f₂ → digitsAux base f₁ n = digitsAux base f₂ n := by
  intro f₁
  induction f₁ with
  | zero =>
    intro f₂ n h1 _
    have : n = 0 := Nat.le_zero.mp h1
    subst this
    cases f₂ with
    | zero => rfl
    | succ f₂ => simp [digitsAux]
  | succ f₁ ih =>
    intro f₂ n h1 h2
    cases f₂ with
    | zero =>
      have : n = 0 := Nat.le_zero.mp h2
      subst this
      simp [digitsAux]
    | succ f₂ =>
      by_cases hn : n = 0
      · subst hn
        simp [digitsAux]
      · simp only [digitsAux, hn, if_false]
        have hdiv : n / base < n := Nat.div_lt_self (Nat.pos_of_ne_zero hn) hb
        rw [ih f₂ (n / base) (by omega) (by omega)]

lemma hexDigitsOfNat_eq (n : Nat) :
    hexDigitsOfNat n = if n = 0 then [] else hexDigitsOfNat (n / 16) ++ [n % 16] := by
  by_cases hn : n = 0
  · subst hn
    rfl
  · obtain ⟨m, rfl⟩ := Nat.exists_eq_succ_of_ne_zero hn
    simp only [hn, if_false]
    show digitsAux 16 (m + 1) (m + 1) = _
    simp only [digitsAux, hn, if_false]
    have hdiv : (m + 1) / 16 < m + 1 := Nat.div_lt_self (by omega) (by norm_num)
    rw [digitsAux_mono 16 (by norm_num) m ((m + 1) / 16) ((m + 1) / 16) (by omega) le_rfl]
    rfl

lemma b64DigitsOfNat_eq (n : Nat) :
    b64DigitsOfNat n = if n = 0 then [] else b64DigitsOfNat (n / 64) ++ [n % 64] := by
  by_cases hn : n = 0
  · subst hn
    rfl
  · obtain ⟨m, rfl⟩ := Nat.exists_eq_succ_of_ne_zero hn
    simp only [hn, if_false]
    show digitsAux 64 (m + 1) (m + 1) = _
    simp only [digitsAux, hn, if_false]
    have hdiv : (m + 1) / 64 < m + 1 := Nat.div_lt_self (by omega) (by norm_num)
    rw [digitsAux_mono 64 (by norm_num) m ((m + 1) / 64) ((m + 1) / 64) (by omega) le_rfl]
    rfl

/-- `PathStructure.bigIntToHex`: big-endian hex string of a bigint; errors when
the result exceeds `maxLength` characters.  A non-positive, non-zero bigint
never enters the JS loop, so it yields the empty string. -/
def bigIntToHex (integer : Int) (maxLength : Nat) : Except String String :=
  if integer = 0 then .ok "0"
  else
    let result : String :=
      if 0 < integer then String.mk ((hexDigitsOfNat integer.toNat).map hexDigitChar) else ""
    let n := result.length
    if maxLength < n then
      .error s!"Encoded hex string length {n} exceeds maximum length of {maxLength}."
    else .ok result

/-- `PathStructure.bigIntTobase64`: big-endian base64-alphabet string of a
bigint; errors when the result exceeds `maxLength` characters. -/
def bigIntTobase64 (integer : Int) (maxLength : Nat) : Except String String :=
  if integer = 0 then .ok "A"
  else
    let result : String :=
      if 0 < integer then String.mk ((b64DigitsOfNat integer.toNat).map b64Char) else ""
    let n := result.length
    if maxLength < n then
      .error s!"Encoded base64 string length {n} exceeds maximum length of {maxLength}."
    else .ok result

/-- Characters consumed per level by the final `slice`:
`this.levels * (this.encoding === 'base64' ? 1 : 2)`. -/
def PathStructure.encMult (ps : PathStructure) : Nat :=
  if ps.encoding = .base64 then 1 else 2

/-- `PathStructure.encodeIntegerAsFolderStructure`. -/
def encodeIntegerAsFolderStructure (ps : PathStructure) (integer : Int) :
    Except String String := do
  let maxLength := ps.levels + 1
  let encoded ←
    if ps.encoding = .base64 then
      (bigIntTobase64 integer maxLength).map (fun s => jsPadStart s maxLength 'A')
    else
      (bigIntToHex integer maxLength).map (fun s => jsPadStart s maxLength '0')
  pure (charSlash (jsTake encoded (ps.levels * ps.encMult)))

/-- `PathStructure.encodeArrayAsFolderStructure`, applied to the SHA-256
digest of the packed primary-key tuple. -/
def encodeArrayAsFolderStructure (ps : PathStructure) (hashed : List Nat) : String :=
  let clipped := hashed.take ps.levels
  let encoded :=
    if ps.encoding = .base64 then jsPadStart (stripEquals (bytesToBase64 clipped)) ps.levels 'A'
    else jsPadStart (bytesToHex clipped) (ps.levels * 2) '0'
  charSlash (jsTake encoded (ps.levels * ps.encMult))

/-- `PathStructure.getEid`, parameterised by the external MessagePack encoder
`pack` and SHA-256 `sha2`. -/
def PathStructure.getEid (pack : List JsValue → List Nat) (sha2 : List Nat → List Nat)
    (ps : PathStructure) (primaryKeyValues : List JsValue) : Except String String :=
  if ps.scheme = .int ∧ primaryKeyValues.length ≠ 1 then
    let n := primaryKeyValues.length
    .error s!"Path structure with 'int' scheme requires exactly one primary key value. Got {n}."
  else if ps.scheme = .int ∧ ¬(primaryKeyValues.getD 0 .undef).isIntegerPk then
    .error "Path structure with 'int' scheme requires primary key value to be an integer or bigint."
  else if primaryKeyValues.length = 0 then
    .error "At least one primary key value is required to compute the path structure."
  else
    let fileName := bytesToBase64 (pack primaryKeyValues)
    if ps.scheme = .int then do
      let folderStructure ← encodeIntegerAsFolderStructure ps
        (primaryKeyValues.getD 0 .undef).toBigInt
      pure (folderStructure ++ fileName)
    else
      .ok (encodeArrayAsFolderStructure ps (sha2 (pack primaryKeyValues)) ++ fileName)

/-! ## A concrete MessagePack encoder

Transcription of the byte layout `@msgpack/msgpack` produces on the value
domain the closed examples use (small arrays of integers and short
strings).  Used to instantiate the `pack` parameter in closed theorems. -/

def msgpackEncodeInt (n : Int) : List Nat :=
  if 0 ≤ n then
    let m := n.toNat
    if m < 128 then [m]
    else if m < 256 then [0xcc, m]
    else if m < 65536 then [0xcd, m / 256, m % 256]
    else if m < 4294967296 then
      [0xce, m / 16777216 % 256, m / 65536 % 256, m / 256 % 256, m % 256]
    else [0xcf] ++ (List.range 8).map (fun k => m / 256 ^ (7 - k) % 256)
  else
    let m := (-n).toNat
    if m ≤ 32 then [256 - m]
    else if m ≤ 128 then [0xd0, 256 - m]
    else if m ≤ 32768 then [0xd1, (65536 - m) / 256, (65536 - m) % 256]
    else [0xd2] ++ (List.range 4).map (fun k => (4294967296 - m) / 256 ^ (3 - k) % 256)

def msgpackEncodeValue : JsValue → List Nat
  | .intNum n => msgpackEncodeInt n
  | .bigIntV n => msgpackEncodeInt n
  | .strV s =>
      let bs := s.toUTF8.toList.map (fun b => b.toNat)
      if bs.length < 32 then (0xa0 + bs.length) :: bs else [0xd9, bs.length % 256] ++ bs
  | .null => [0xc0]
  | .undef => [0xc0]
  | .boolV b => [if b then 0xc3 else 0xc2]
  | .nonIntNum => [0xcb]
  | .geomV _ => [0xc7]

def msgpackEncode (vs : List JsValue) : List Nat :=
  (if vs.length < 16 then [0x90 + vs.length] else [0xdc, vs.length / 256, vs.length % 256]) ++
    (vs.map msgpackEncodeValue).flatten

/-- Stand-in for the external SHA-256 primitive, used only to instantiate
closed examples; every general theorem quantifies over the hash function. -/
def sha256Stub : List Nat → List Nat := fun _ => List.replicate 32 0

def exceptIsOk {ε α : Type} : Except ε α → Bool
  | .ok _ => true
  | .error _ => false

instance exceptDecEq {ε α : Type} [DecidableEq ε] [DecidableEq α] :
    DecidableEq (Except ε α) := fun a b =>
  match a, b with
  | .ok x, .ok y =>
      if h : x = y then .isTrue (by rw [h]) else .isFalse (by intro hc; cases hc; exact h rfl)
  | .error x, .error y =>
      if h : x = y then .isTrue (by rw [h]) else .isFalse (by intro hc; cases hc; exact h rfl)
  | .ok _, .error _ => .isFalse (by intro hc; cases hc)
  | .error _, .ok _ => .isFalse (by intro hc; cases hc)

/-! ## Length lemmas for the folder-structure encoders -/

lemma string_mk_length (l : List Char) : (String.mk l).length = l.length := rfl

lemma string_mk_append (l m : List Char) :
    String.mk l ++ String.mk m = String.mk (l ++ m) := rfl

lemma string_length_append (s t : String) : (s ++ t).length = s.length + t.length := by
  cases s with
  | mk a =>
    cases t with
    | mk b =>
      show (a ++ b).length = a.length + b.length
      exact List.length_append a b

lemma jsPadStart_length (s : String) (n : Nat) (c : Char) :
    (jsPadStart s n c).length = max n s.length := by
  cases s with
  | mk l =>
    simp only [jsPadStart, string_mk_length, string_mk_append]
    show (List.replicate (n - l.length) c ++ l).length = _
    simp only [List.length_append, List.length_replicate, string_mk_length]
    omega

lemma jsTake_length (s : String) (n : Nat) :
    (jsTake s n).length = min n s.length := by
  cases s with
  | mk l =>
    simp [jsTake, string_mk_length, List.length_take, String.toList]

lemma charSlash_length (s : String) : (charSlash s).length = 2 * s.length := by
  cases s with
  | mk l =>
    show (l.foldr (fun c acc => c :: '/' :: acc) []).length = 2 * l.length
    induction l with
    | nil => simp
    | cons c cs ih => simp [ih]; ring

lemma hexDigitsOfNat_length_le (m : Nat) :
    ∀ n : Nat, n < 16 ^ m → (hexDigitsOfNat n).length ≤ m := by
  induction m with
  | zero =>
    intro n h
    have : n = 0 := by omega
    subst this
    rw [hexDigitsOfNat_eq]
    simp
  | succ m ih =>
    intro n h
    by_cases hn : n = 0
    · subst hn
      rw [hexDigitsOfNat_eq]
      simp
    · rw [hexDigitsOfNat_eq]
      simp only [hn, if_false, List.length_append, List.length_cons, List.length_nil]
      have hdiv : n / 16 < 16 ^ m := by
        rw [Nat.div_lt_iff_lt_mul (by norm_num)]
        calc n < 16 ^ (m + 1) := h
          _ = 16 ^ m * 16 := by ring
      have := ih (n / 16) hdiv
      omega

lemma b64DigitsOfNat_length_le (m : Nat) :
    ∀ n : Nat, n < 64 ^ m → (b64DigitsOfNat n).length ≤ m := by
  induction m with
  | zero =>
    intro n h
    have : n = 0 := by omega
    subst this
    rw [b64DigitsOfNat_eq]
    simp
  | succ m ih =>
    intro n h
    by_cases hn : n = 0
    · subst hn
      rw [b64DigitsOfNat_eq]
      simp
    · rw [b64DigitsOfNat_eq]
      simp only [hn, if_false, List.length_append, List.length_cons, List.length_nil]
      have hdiv : n / 64 < 64 ^ m := by
        rw [Nat.div_lt_iff_lt_mul (by norm_num)]
        calc n < 64 ^ (m + 1) := h
          _ = 64 ^ m * 64 := by ring
      have := ih (n / 64) hdiv
      omega

lemma bigIntToHex_ok (i : Int) (m : Nat) (hm : 1 ≤ m) (h : i < (16 : Int) ^ m) :
    ∃ s : String, bigIntToHex i m = .ok s ∧ s.length ≤ m := by
  unfold bigIntToHex
  by_cases h0 : i = 0
  · exact ⟨"0", by simp [h0], by simpa using hm⟩
  · by_cases hpos : 0 < i
    · have hlt : i.toNat < 16 ^ m := by
        have : ((16 : Int) ^ m) = ((16 ^ m : Nat) : Int) := by push_cast; ring
        omega
      have hlen := hexDigitsOfNat_length_le m i.toNat hlt
      refine ⟨String.mk ((hexDigitsOfNat i.toNat).map hexDigitChar), ?_, ?_⟩
      · simp only [h0, if_false, hpos, if_true]
        rw [if_neg]
        simp only [string_mk_length, List.length_map]
        omega
      · simp only [string_mk_length, List.length_map]
        omega
    · refine ⟨"", ?_, by simp⟩
      simp only [h0, if_false, hpos, if_false]
      rw [if_neg]
      simp

lemma bigIntTobase64_ok (i : Int) (m : Nat) (hm : 1 ≤ m) (h : i < (64 : Int) ^ m) :
    ∃ s : String, bigIntTobase64 i m = .ok s ∧ s.length ≤ m := by
  unfold bigIntTobase64
  by_cases h0 : i = 0
  · exact ⟨"A", by simp [h0], by simpa using hm⟩
  · by_cases hpos : 0 < i
    · have hlt : i.toNat < 64 ^ m := by
        have : ((64 : Int) ^ m) = ((64 ^ m : Nat) : Int) := by push_cast; ring
        omega
      have hlen := b64DigitsOfNat_length_le m i.toNat hlt
      refine ⟨String.mk ((b64DigitsOfNat i.toNat).map b64Char), ?_, ?_⟩
      · simp only [h0, if_false, hpos, if_true]
        rw [if_neg]
        simp only [string_mk_length, List.length_map]
        omega
      · simp only [string_mk_length, List.length_map]
        omega
    · refine ⟨"", ?_, by simp⟩
      simp only [h0, if_false, hpos, if_false]
      rw [if_neg]
      simp

/-- The result shape asserted by the specification: the eid is `levels`-like
folder segments (`charSlash folder`) followed by the base64 MessagePack
filename, where `folder` has exactly `n` characters. -/
def eidHasShape (pack : List JsValue → List Nat) (sha2 : List Nat → List Nat)
    (ps : PathStructure) (K : List JsValue) (n : Nat) : Prop :=
  ∃ folder : String, folder.length = n ∧
    PathStructure.getEid pack sha2 ps K = .ok (charSlash folder ++ bytesToBase64 (pack K))

/-- Number of positions at which two folder strings differ. -/
def charDiffs (a b : List Char) : Nat :=
  (a.zip b).countP (fun p => p.1 != p.2)

lemma encodeIntegerAsFolderStructure_shape (ps : PathStructure) (hl : 1 ≤ ps.levels)
    (i : Int)
    (h : i < (if ps.encoding = .base64 then (64 : Int) else 16) ^ (ps.levels + 1)) :
    ∃ folder : String,
      folder.length = (if ps.encoding = .base64 then ps.levels else ps.levels + 1) ∧
      encodeIntegerAsFolderStructure ps i = .ok (charSlash folder) := by
  by_cases henc : ps.encoding = .base64
  · simp only [henc, if_true] at h ⊢
    obtain ⟨s, hs, hlen⟩ := bigIntTobase64_ok i (ps.levels + 1) (by omega) h
    refine ⟨jsTake (jsPadStart s (ps.levels + 1) 'A') (ps.levels * ps.encMult), ?_, ?_⟩
    · rw [jsTake_length, jsPadStart_length]
      have hm : ps.encMult = 1 := by simp [PathStructure.encMult, henc]
      rw [hm]
      omega
    · unfold encodeIntegerAsFolderStructure
      rw [if_pos henc, hs]
      rfl
  · simp only [henc, if_false] at h ⊢
    obtain ⟨s, hs, hlen⟩ := bigIntToHex_ok i (ps.levels + 1) (by omega) h
    refine ⟨jsTake (jsPadStart s (ps.levels + 1) '0') (ps.levels * ps.encMult), ?_, ?_⟩
    · rw [jsTake_length, jsPadStart_length]
      have hm : ps.encMult = 2 := by simp [PathStructure.encMult, henc]
      rw [hm]
      omega
    · unfold encodeIntegerAsFolderStructure
      rw [if_neg henc, hs]
      rfl

lemma getEid_int_shape (pack : List JsValue → List Nat) (sha2 : List Nat → List Nat)
    (ps : PathStructure) (hl : 1 ≤ ps.levels) (hsc : ps.scheme = .int)
    (v : JsValue) (hint : v.isIntegerPk)
    (h : v.toBigInt < (if ps.encoding = .base64 then (64 : Int) else 16) ^ (ps.levels + 1)) :
    eidHasShape pack sha2 ps [v]
      (if ps.encoding = .base64 then ps.levels else ps.levels + 1) := by
  obtain ⟨folder, hflen, hfold⟩ := encodeIntegerAsFolderStructure_shape ps hl v.toBigInt h
  refine ⟨folder, hflen, ?_⟩
  unfold PathStructure.getEid
  rw [if_neg (by simp), if_neg (by simp [hint]), if_neg (by simp), if_pos hsc]
  simp only [List.getD, List.getD_cons_zero, List.get?_eq_getElem?]
  show (encodeIntegerAsFolderStructure ps v.toBigInt).bind _ = _
  rw [hfold]
  rfl

lemma getEid_hash_shape (pack : List JsValue → List Nat) (sha2 : List Nat → List Nat)
    (ps : PathStructure) (hsc : ps.scheme = .msgpackHash) (K : List JsValue) (hK : K ≠ []) :
    eidHasShape pack sha2 ps K (ps.levels * ps.encMult) := by
  refine ⟨jsTake
    (if ps.encoding = .base64 then
        jsPadStart (stripEquals (bytesToBase64 ((sha2 (pack K)).take ps.levels))) ps.levels 'A'
      else jsPadStart (bytesToHex ((sha2 (pack K)).take ps.levels)) (ps.levels * 2) '0')
    (ps.levels * ps.encMult), ?_, ?_⟩
  · rw [jsTake_length]
    by_cases henc : ps.encoding = .base64
    · rw [if_pos henc, jsPadStart_length]
      have hm : ps.encMult = 1 := by simp [PathStructure.encMult, henc]
      rw [hm]
      omega
    · rw [if_neg henc, jsPadStart_length]
      have hm : ps.encMult = 2 := by simp [PathStructure.encMult, henc]
      rw [hm]
      omega
  · have hscne : ¬ ps.scheme = .int := by rw [hsc]; intro hcon; cases hcon
    unfold PathStructure.getEid
    rw [if_neg (by simp [hscne]), if_neg (by simp [hscne]),
      if_neg (by simp [hK]), if_neg hscne]
    unfold encodeArrayAsFolderStructure
    rfl

/-- C1 (amended).  For every MessagePack encoder, hash function and valid
path-structure configuration: (1) for the `int` scheme with an integer
primary key whose encoding fits `levels + 1` alphabet characters, `getEid`
returns folder segments followed by the base64 MessagePack filename, with
exactly `levels` single-character segments under `base64` encoding but
`levels + 1` segments under `hex` encoding; (2) for the `msgpack/hash`
scheme the folder part has exactly `levels` segments under `base64` and
`2 * levels` segments under `hex`; (3) for the `int` scheme with `base64`
encoding, the folder parts of any two in-range keys differ in at most
`levels` characters.  (As stated, the claim fails: `hex` folder parts do
not have `levels` segments, and out-of-range integers make `getEid`
throw.) -/
theorem getEid_folder_shape (pack : List JsValue → List Nat) (sha2 : List Nat → List Nat)
    (ps : PathStructure) (hv : ps.validConfig) :
    (∀ v : JsValue, ps.scheme = .int → v.isIntegerPk →
      v.toBigInt < (if ps.encoding = .base64 then (64 : Int) else 16) ^ (ps.levels + 1) →
      eidHasShape pack sha2 ps [v]
        (if ps.encoding = .base64 then ps.levels else ps.levels + 1)) ∧
    (∀ K : List JsValue, ps.scheme = .msgpackHash → K ≠ [] →
      eidHasShape pack sha2 ps K (ps.levels * ps.encMult)) ∧
    (∀ v w : JsValue, ps.scheme = .int → ps.encoding = .base64 →
      v.isIntegerPk → w.isIntegerPk →
      v.toBigInt < (64 : Int) ^ (ps.levels + 1) → w.toBigInt < (64 : Int) ^ (ps.levels + 1) →
      ∃ fv fw : String,
        PathStructure.getEid pack sha2 ps [v] = .ok (charSlash fv ++ bytesToBase64 (pack [v])) ∧
        PathStructure.getEid pack sha2 ps [w] = .ok (charSlash fw ++ bytesToBase64 (pack [w])) ∧
        charDiffs fv.toList fw.toList ≤ ps.levels) := by
  obtain ⟨hl, -⟩ := hv
  refine ⟨fun v hsc hint h => getEid_int_shape pack sha2 ps hl hsc v hint h,
    fun K hsc hK => getEid_hash_shape pack sha2 ps hsc K hK, ?_⟩
  intro v w hsc henc hiv hiw hv64 hw64
  obtain ⟨fv, hfvlen, hfv⟩ := getEid_int_shape pack sha2 ps hl hsc v hiv (by simpa [henc] using hv64)
  obtain ⟨fw, hfwlen, hfw⟩ := getEid_int_shape pack sha2 ps hl hsc w hiw (by simpa [henc] using hw64)
  rw [if_pos henc] at hfvlen hfwlen
  refine ⟨fv, fw, hfv, hfw, ?_⟩
  calc charDiffs fv.toList fw.toList ≤ (fv.toList.zip fw.toList).length :=
        List.countP_le_length _
    _ ≤ fv.toList.length := by rw [List.length_zip]; omega
    _ = ps.levels := by
        cases fv with
        | mk l => simpa [String.toList] using hfvlen

/-- Witness for `getEid_folder_shape` at a concrete configuration
(`int` scheme, base64, 2 levels, primary key 5). -/
theorem getEid_folder_shape_witness :
    eidHasShape msgpackEncode sha256Stub ⟨.int, 64, 2, .base64⟩ [.intNum 5] 2 := by
  have h := (getEid_folder_shape msgpackEncode sha256Stub ⟨.int, 64, 2, .base64⟩
    (by decide)).1 (.intNum 5) rfl (by decide) (by decide)
  simpa using h

/-- C1 counterexample: with `int` scheme, `hex` encoding and one level, the
primary key 256 makes `getEid` throw (its hex encoding has 3 characters,
more than `levels + 1 = 2`), so `getEid` is not total on valid inputs. -/
theorem getEid_total_counterexample :
    exceptIsOk (PathStructure.getEid msgpackEncode sha256Stub
      ⟨.int, 16, 1, .hex⟩ [.intNum 256]) = false := by
  decide

/-- C2 (code bug): with scheme `int`, encoding `hex`, `levels = 2`, the code
evaluated at the claim's input throws — `bigIntToHex` caps the encoding at
`maxLength = levels + 1 = 3` characters while 12345 = 0x3039 needs 4 — so
`getEid([12345])` never returns the specified
`"3/0/" ++ base64(pack([12345]))`.  The claim matches the encoder's own
design comment (the trailing characters beyond the first `levels` are meant
to be unused, not a reason to throw) and the feature-paths format the class
documentation references. -/
theorem getEid_12345_throws :
    PathStructure.getEid msgpackEncode sha256Stub ⟨.int, 256, 2, .hex⟩ [.intNum 12345] =
      .error "Encoded hex string length 4 exceeds maximum length of 3." ∧
    PathStructure.getEid msgpackEncode sha256Stub ⟨.int, 256, 2, .hex⟩ [.intNum 12345] ≠
      .ok ("3/0/" ++ bytesToBase64 (msgpackEncode [.intNum 12345])) := by
  exact ⟨by decide, by decide⟩

/-! ## Legend (src/unnamed/part_004) and serializer.hexHash (src/unnamed/part_007)

The repository carries two variants of `Legend.fromFile`: an early one that
performs no hash verification, and the current one that verifies the
filename stem against `serializer.hexHash` of the file bytes.  Both are
embedded.  The MessagePack codec appears as the parameters `packL`
(encoding of `[primaryKeyIds, nonPrimaryKeyIds]`) and `decodeL`
(decoding plus the zod tuple parse, `none` meaning a decode/parse error). -/

/-- `serializer.hexHash`: hex encoding of the first 20 bytes of the SHA-256
digest of the data. -/
def hexHash (sha2 : List Nat → List Nat) (data : List Nat) : String :=
  bytesToHex ((sha2 data).take 20)

inductive LegendErrorKind where
  | fileNotFound
  | rangeError
  | invalidFileContents
  | decodeError
  | genericError
deriving DecidableEq, Repr

structure Legend where
  id : String
  primaryKeyIds : List String
  nonPrimaryKeyIds : List String
deriving DecidableEq, Repr

/-- `Legend.columnIds`: `{columnId, isPrimary, dataIndex}` triples in wire
order (primary keys first, each indexed within its own array). -/
def Legend.columnIds (l : Legend) : List (String × Bool × Nat) :=
  l.primaryKeyIds.enum.map (fun p => (p.2, true, p.1)) ++
    l.nonPrimaryKeyIds.enum.map (fun p => (p.2, false, p.1))

/-- JS `id && hash !== id` (truthiness test on an optional string). -/
def jsIdMismatch (id : Option String) (hash : String) : Bool :=
  match id with
  | some i => hash != i
  | none => false

/-- The `Legend` constructor of the hash-verifying variant: recomputes the
hash of the re-encoded column ids and, when an `id` is supplied, fails with
`InvalidFileContents` if it differs. -/
def Legend.construct (packL : List String → List String → List Nat)
    (sha2 : List Nat → List Nat) (primaryKeyIds nonPrimaryKeyIds : List String)
    (id : Option String) (skipValidation : Bool) : Except LegendErrorKind Legend :=
  if skipValidation ∧ id = none then .error .genericError
  else if skipValidation then .ok ⟨id.getD "", primaryKeyIds, nonPrimaryKeyIds⟩
  else if jsIdMismatch id (hexHash sha2 (packL primaryKeyIds nonPrimaryKeyIds)) then
    .error .invalidFileContents
  else .ok ⟨hexHash sha2 (packL primaryKeyIds nonPrimaryKeyIds), primaryKeyIds, nonPrimaryKeyIds⟩

/-- `Legend.fromBuffer` (hash-verifying variant). -/
def Legend.fromBuffer (packL : List String → List String → List Nat)
    (sha2 : List Nat → List Nat) (decodeL : List Nat → Option (List String × List String))
    (buffer : List Nat) (id : Option String) : Except LegendErrorKind Legend :=
  if buffer.length = 0 then .error .rangeError
  else if jsIdMismatch id (hexHash sha2 buffer) then .error .invalidFileContents
  else
    match decodeL buffer with
    | none => .error .decodeError
    | some (pk, npk) => Legend.construct packL sha2 pk npk (some (hexHash sha2 buffer)) false

/-- `Legend.fromFile` (hash-verifying variant); the file is given as its
name stem plus its bytes (existence is handled by the FS collaborator). -/
def Legend.fromFile (packL : List String → List String → List Nat)
    (sha2 : List Nat → List Nat) (decodeL : List Nat → Option (List String × List String))
    (stem : String) (buffer : List Nat) : Except LegendErrorKind Legend :=
  if buffer.length = 0 then .error .rangeError
  else if stem ≠ hexHash sha2 buffer then .error .invalidFileContents
  else Legend.fromBuffer packL sha2 decodeL buffer (some stem)

/-- `Legend.fromFile` (first variant, src/unnamed/part_004 lines 74-88): no
hash verification; the id is simply the file name stem. -/
def Legend.fromFileFirstVariant (decodeL : List Nat → Option (List String × List String))
    (stem : String) (buffer : List Nat) : Except LegendErrorKind Legend :=
  if buffer.length = 0 then .error .rangeError
  else
    match decodeL buffer with
    | none => .error .decodeError
    | some (pk, npk) => .ok ⟨stem, pk, npk⟩

/-- C3 counterexample: the first `Legend.fromFile` variant accepts a legend
file whose name stem differs from the content hash — the read succeeds (no
`InvalidFileContents`) and the resulting id is the stem, not the hash. -/
theorem legend_fromFile_first_variant_counterexample :
    Legend.fromFileFirstVariant (fun _ => some ([], [])) "abc" [1] =
      .ok ⟨"abc", [], []⟩ ∧
    hexHash sha256Stub [1] ≠ "abc" := by
  constructor
  · rfl
  · decide

/-- C3 (amended): the hash-verifying variant of `Legend.fromFile` fails with
`InvalidFileContents` whenever the (non-empty) file's hash differs from the
name stem, and on success the legend id equals that hash (and the stem).
The earlier variant performs no such verification. -/
theorem legend_fromFile_hash_check (packL : List String → List String → List Nat)
    (sha2 : List Nat → List Nat) (decodeL : List Nat → Option (List String × List String))
    (stem : String) (buffer : List Nat) :
    (buffer ≠ [] → stem ≠ hexHash sha2 buffer →
      Legend.fromFile packL sha2 decodeL stem buffer = .error .invalidFileContents) ∧
    (∀ l : Legend, Legend.fromFile packL sha2 decodeL stem buffer = .ok l →
      l.id = hexHash sha2 buffer ∧ l.id = stem) := by
  constructor
  · intro hne hmm
    unfold Legend.fromFile
    rw [if_neg (by simpa using hne), if_pos hmm]
  · intro l hok
    unfold Legend.fromFile at hok
    by_cases h0 : buffer.length = 0
    · rw [if_pos h0] at hok
      cases hok
    · rw [if_neg h0] at hok
      by_cases hs : stem ≠ hexHash sha2 buffer
      · rw [if_pos hs] at hok
        cases hok
      · rw [if_neg hs] at hok
        push_neg at hs
        unfold Legend.fromBuffer at hok
        rw [if_neg h0] at hok
        have hmm : jsIdMismatch (some stem) (hexHash sha2 buffer) = false := by
          simp [jsIdMismatch, hs]
        rw [hmm] at hok
        simp only [Bool.false_eq_true, if_false] at hok
        cases hdec : decodeL buffer with
        | none =>
          rw [hdec] at hok
          cases hok
        | some pknpk =>
          obtain ⟨pk, npk⟩ := pknpk
          rw [hdec] at hok
          unfold Legend.construct at hok
          simp only [Bool.false_eq_true, false_and, if_false] at hok
          by_cases hm2 : jsIdMismatch (some (hexHash sha2 buffer))
              (hexHash sha2 (packL pk npk)) = true
          · rw [if_pos hm2] at hok
            cases hok
          · rw [if_neg hm2] at hok
            cases hok
            simp only [jsIdMismatch, bne_iff_ne, ne_eq, Bool.not_eq_true,
              Decidable.not_not] at hm2
            simp only [hm2]
            exact ⟨trivial, hs.symm⟩

/-- Witness for `legend_fromFile_hash_check`: a mismatched stem is rejected
with `InvalidFileContents`, and a matching read yields the hash as id. -/
theorem legend_fromFile_hash_check_witness :
    Legend.fromFile (fun _ _ => []) sha256Stub (fun _ => some ([], [])) "ab" [1] =
      .error .invalidFileContents ∧
    (Legend.mk (hexHash sha256Stub [1]) [] []).id = hexHash sha256Stub [1] :=
  ⟨(legend_fromFile_hash_check (fun _ _ => []) sha256Stub (fun _ => some ([], []))
      "ab" [1]).1 (by decide) (by decide),
    ((legend_fromFile_hash_check (fun _ _ => []) sha256Stub (fun _ => some ([], []))
      (hexHash sha256Stub [1]) [1]).2 ⟨hexHash sha256Stub [1], [], []⟩ (by decide)).1⟩

/-! ## Schema entries, features, datasets

`SchemaEntry` keeps the fields the claims need.  `isPrimary` is the zod
transform `typeof primaryKeyIndex === 'number' && primaryKeyIndex >= 0`.
JS objects and `Map`s are modelled as insertion-ordered association lists
(`objGet`/`objSet`/`objDelete` have exactly the JS property semantics:
assignment to an existing key keeps its position, a new key is appended,
deletion removes the entry). -/

inductive DataType where
  | boolean
  | blob
  | date
  | float
  | geometry
  | integer
  | interval
  | numeric
  | text
  | time
  | timestamp
deriving DecidableEq, Repr

structure SchemaEntry where
  id : String
  name : String
  dataType : DataType
  primaryKeyIndex : Option Int := none
  size : Option Nat := none
  geometryCrs : Option String := none
deriving DecidableEq, Repr

def SchemaEntry.isPrimary (e : SchemaEntry) : Bool :=
  match e.primaryKeyIndex with
  | some i => 0 ≤ i
  | none => false

def objGet {α : Type} (o : List (String × α)) (k : String) : Option α :=
  (o.find? (fun kv => kv.1 == k)).map (fun kv => kv.2)

def objSet {α : Type} (o : List (String × α)) (k : String) (v : α) : List (String × α) :=
  if o.any (fun kv => kv.1 == k) then o.map (fun kv => if kv.1 == k then (k, v) else kv)
  else o ++ [(k, v)]

def objDelete {α : Type} (o : List (String × α)) (k : String) : List (String × α) :=
  o.filter (fun kv => kv.1 != k)

/-- JS object spread `{...a, ...b}`. -/
def spreadMerge {α : Type} (a b : List (String × α)) : List (String × α) :=
  b.foldl (fun acc kv => objSet acc kv.1 kv.2) a

/-- A GeoJSON feature as the working copy sees it (`_kart.ids`, geometry,
non-geometry properties). -/
structure KartFeature where
  id : String
  kartIds : List (String × JsValue)
  geometry : Geometry
  properties : List (String × JsValue)
deriving DecidableEq, Repr

/-- A baseline feature as `dataset.get(eid)` returns it: its `ids` map, its
`toGeoJSON()` projection (`none` when the geometry is null), and its typed
accessor results — `getValue` viewed from the diff synthesizer, where
`some v` stands for `{ok: true, data: v}` and `none` for a failed access. -/
structure DatasetFeature where
  ids : List (String × JsValue)
  geo : Option KartFeature
  vals : List (String × Option JsValue)
deriving DecidableEq, Repr

def DatasetFeature.getValue (f : DatasetFeature) (k : String) : Option JsValue :=
  match objGet f.vals k with
  | some (some v) => some v
  | _ => none

structure Dataset where
  id : String
  schema : List SchemaEntry
  features : List (String × DatasetFeature)
deriving DecidableEq, Repr

/-! ## WorkingFeatureCollection (src/lib/table-dataset-v3/WorkingFeatureCollection.ts)

`compliant` is the external-to-this-component `checkFeatureCompliance`
(`Feature.fromGeoJSON` + `validate`); the tracker and diff logic never
inspect its internals, so the theorems quantify over it.  `stringify`
equality between property values is structural equality of `JsValue`
(devalue's serializer is injective on this value domain).  Events are
synchronous notifications with no effect on the tracker state and are not
modelled. -/

inductive TrackedChange where
  | delete
  | insert (feature : KartFeature)
  | update (geometry : Option Geometry) (properties : Option (List (String × JsValue)))
deriving DecidableEq, Repr

structure WorkingFeatureCollection where
  dataset : Dataset
  geometryType : Option String
  primaryKeys : List String
  primaryGeometryKey : String
  tracked : List (String × TrackedChange)
deriving DecidableEq, Repr

/-- The constructor.  The dominant-geometry-type computation is commented
out in the source, so `geometryType` is left `undefined` (`none`); the
`primaryGeometryKey` ternary is transcribed verbatim, duplicated
`includes('geom')` condition included. -/
def WorkingFeatureCollection.init (dataset : Dataset) :
    Except String WorkingFeatureCollection :=
  let primaryKeys := (dataset.schema.filter (fun e => e.isPrimary)).map (fun e => e.name)
  let geometryColumns :=
    (dataset.schema.filter (fun e => e.dataType == .geometry)).map (fun e => e.name)
  if geometryColumns.isEmpty then
    let did := dataset.id
    .error s!"Schema for dataset {did} does not have a geometry column."
  else
    let primaryGeometryKey :=
      if geometryColumns.contains "geom" then "geometry"
      else if geometryColumns.contains "geom" then "geom"
      else geometryColumns.headD ""
    .ok ⟨dataset, none, primaryKeys, primaryGeometryKey, []⟩

def WorkingFeatureCollection.get (compliant : KartFeature → Bool)
    (c : WorkingFeatureCollection) (featureId : String) : Option KartFeature :=
  let originalFeature := (objGet c.dataset.features featureId).bind (fun f => f.geo)
  let fallback : Option KartFeature :=
    match originalFeature with
    | some f => if compliant f then some f else none
    | none => none
  match objGet c.tracked featureId with
  | some .delete => none
  | some (.insert f) => if compliant f then some f else fallback
  | some (.update g p) =>
      match originalFeature with
      | some orig =>
          some { orig with
            geometry := g.getD orig.geometry,
            properties :=
              match p with
              | some ps => spreadMerge orig.properties ps
              | none => orig.properties }
      | none => fallback
  | none => fallback

def WorkingFeatureCollection.has (compliant : KartFeature → Bool)
    (c : WorkingFeatureCollection) (featureId : String) : Bool :=
  (WorkingFeatureCollection.get compliant c featureId).isSome

/-- `TrackedChanges.setDelete`. -/
def tcSetDelete (t : List (String × TrackedChange)) (key : String) :
    List (String × TrackedChange) :=
  match objGet t key with
  | none => objSet t key .delete
  | some .delete => t
  | some (.insert _) => objDelete t key
  | some _ => objSet t key .delete

/-- `TrackedChanges.setInsert`. -/
def tcSetInsert (t : List (String × TrackedChange)) (key : String) (f : KartFeature) :
    List (String × TrackedChange) :=
  objSet t key (.insert f)

/-- `TrackedChanges.setGeometry`: merges with an existing update that carries
properties, otherwise overwrites. -/
def tcSetGeometry (t : List (String × TrackedChange)) (key : String) (g : Geometry) :
    List (String × TrackedChange) :=
  match objGet t key with
  | some (.update _ (some p)) => objSet t key (.update (some g) (some p))
  | _ => objSet t key (.update (some g) none)

/-- `TrackedChanges.setProperties`: merges with an existing update that
carries a geometry, otherwise overwrites. -/
def tcSetProperties (t : List (String × TrackedChange)) (key : String)
    (p : List (String × JsValue)) : List (String × TrackedChange) :=
  match objGet t key with
  | some (.update (some g) _) => objSet t key (.update (some g) (some p))
  | _ => objSet t key (.update none (some p))

def WorkingFeatureCollection.updateProperties (compliant : KartFeature → Bool)
    (c : WorkingFeatureCollection) (featureId : String)
    (properties : List (String × JsValue)) (merge : Bool) :
    Except String WorkingFeatureCollection :=
  match WorkingFeatureCollection.get compliant c featureId with
  | none => .error s!"Feature with ID \"{featureId}\" not found."
  | some currentFeature =>
    let np0 := if merge then spreadMerge currentFeature.properties properties else properties
    let np1 := np0.filter (fun kv => kv.2 != JsValue.undef)
    match (objGet c.dataset.features featureId).bind (fun f => f.geo) with
    | none =>
        .error s!"Inconsistent state: attempted to update properties for feature with ID \"{featureId}\" but could not find the original feature in the dataset."
    | some originalFeature =>
      let np2 := np1.filter (fun kv =>
        match objGet originalFeature.properties kv.1 with
        | some ov => kv.2 != ov
        | none => true)
      if compliant { currentFeature with properties := np2 } then
        if np2.length != currentFeature.properties.length ||
            currentFeature.properties != np2 then
          .ok { c with tracked := tcSetProperties c.tracked featureId np2 }
        else .ok c
      else
        .error s!"Attempted update for feature with ID \"{featureId}\" does not comply with the schema."

def WorkingFeatureCollection.updateGeometry (compliant : KartFeature → Bool)
    (c : WorkingFeatureCollection) (featureId : String) (geometry : Geometry) :
    Except String WorkingFeatureCollection :=
  if WorkingFeatureCollection.has compliant c featureId = false then
    .error s!"Feature with ID \"{featureId}\" not found."
  else if some geometry.type ≠ c.geometryType then
    let gt := geometry.type
    let ct := (c.geometryType).getD "undefined"
    .error s!"Cannot change geometry of type \"{gt}\" for feature with ID \"{featureId}\" in a collection with geometry type \"{ct}\"."
  else .ok { c with tracked := tcSetGeometry c.tracked featureId geometry }

def WorkingFeatureCollection.add (compliant : KartFeature → Bool)
    (c : WorkingFeatureCollection) (feature : KartFeature) :
    Except String WorkingFeatureCollection :=
  let fid := feature.id
  if (WorkingFeatureCollection.get compliant c feature.id).isSome then
    .error s!"Feature with ID \"{fid}\" already exists."
  else if some feature.geometry.type ≠ c.geometryType then
    let gt := feature.geometry.type
    let ct := (c.geometryType).getD "undefined"
    .error s!"Cannot add feature with ID \"{fid}\" and geometry type \"{gt}\" to a collection with geometry type \"{ct}\"."
  else if compliant feature then
    .ok { c with tracked := tcSetInsert c.tracked feature.id feature }
  else
    .error s!"Feature to add with ID \"{fid}\" does not comply with the schema."

def WorkingFeatureCollection.delete (compliant : KartFeature → Bool)
    (c : WorkingFeatureCollection) (featureId : String) :
    Except String WorkingFeatureCollection :=
  if WorkingFeatureCollection.has compliant c featureId = false then
    .error s!"Feature with ID \"{featureId}\" not found."
  else .ok { c with tracked := tcSetDelete c.tracked featureId }

/-! ## Diff synthesis -/

inductive DiffVal where
  | v (x : JsValue)
  | geom (g : Geometry)
deriving DecidableEq, Repr

/-- A change entry of the `kart.diff/v1+hexwkb` feature list: `ins` is a
`"++"` object, `del` a `"--"` object, `upd` a `"+"` object; each carries its
keyed values in emission order. -/
inductive DiffRow where
  | ins (data : List (String × DiffVal))
  | del (data : List (String × DiffVal))
  | upd (data : List (String × DiffVal))
deriving DecidableEq, Repr

def DiffRow.keys : DiffRow → List String
  | .ins d => d.map (fun kv => kv.1)
  | .del d => d.map (fun kv => kv.1)
  | .upd d => d.map (fun kv => kv.1)

def DiffRow.isDel : DiffRow → Bool
  | .del _ => true
  | _ => false

def DiffRow.isUpd : DiffRow → Bool
  | .upd _ => true
  | _ => false

/-- `x ?? null`. -/
def nullCo (o : Option JsValue) : JsValue :=
  match o with
  | none => .null
  | some .undef => .null
  | some v => v

/-- `data[key] === undefined`. -/
def diffIsUndef (data : List (String × DiffVal)) (k : String) : Bool :=
  match objGet data k with
  | none => true
  | some (.v .undef) => true
  | some _ => false

/-- `if (data[key] === undefined) data[key] = v`. -/
def diffSetIfUndef (data : List (String × DiffVal)) (k : String) (v : DiffVal) :
    List (String × DiffVal) :=
  if diffIsUndef data k then objSet data k v else data

/-- One entry of the `trackedChanges.map` callback in `get diff()`. -/
def diffRowOf (c : WorkingFeatureCollection) (eid : String) (ch : TrackedChange) :
    Except String DiffRow :=
  match ch with
  | .insert f =>
      let data0 := c.primaryKeys.foldl
        (fun d key => objSet d key (.v ((objGet f.kartIds key).getD .undef))) []
      let data1 := objSet data0 c.primaryGeometryKey (.geom f.geometry)
      let data2 := f.properties.foldl (fun d kv => diffSetIfUndef d kv.1 (.v kv.2)) data1
      .ok (.ins data2)
  | .delete =>
      match objGet c.dataset.features eid with
      | none => .error s!"Original feature with ID \"{eid}\" not found for update diff generation."
      | some orig =>
          .ok (.del (c.primaryKeys.foldl
            (fun d key => objSet d key (.v (nullCo (objGet orig.ids key)))) []))
  | .update g p =>
      match objGet c.dataset.features eid with
      | none => .error s!"Original feature with ID \"{eid}\" not found for update diff generation."
      | some orig => do
          let newValues0 := c.primaryKeys.foldl
            (fun d key => objSet d key (.v (nullCo (objGet orig.ids key)))) []
          let oldValues0 := newValues0
          let step1 ←
            match g with
            | some geo =>
                match DatasetFeature.getValue orig c.primaryGeometryKey with
                | some oldg =>
                    Except.ok (objSet newValues0 c.primaryGeometryKey (.geom geo),
                      objSet oldValues0 c.primaryGeometryKey (.v oldg))
                | none =>
                    Except.error s!"Failed to get original geometry value for feature ID \"{eid}\" when generating update diff."
            | none => Except.ok (newValues0, oldValues0)
          let step2 ←
            match p with
            | some props =>
                props.foldlM (fun acc kv => do
                  let nv := diffSetIfUndef acc.1 kv.1 (.v kv.2)
                  let ov ←
                    if diffIsUndef acc.2 kv.1 then
                      match DatasetFeature.getValue orig kv.1 with
                      | some oldv => Except.ok (objSet acc.2 kv.1 (.v oldv))
                      | none =>
                          Except.error s!"Failed to get original property value for feature ID \"{eid}\" when generating update diff."
                    else Except.ok acc.2
                  Except.ok (nv, ov)) step1
            | none => Except.ok step1
          Except.ok (.upd step2.1)

/-- `get diff()`: an empty tracker yields the empty document
`{ <dataset-id>: {} }` (no rows); otherwise one row per tracked change, in
tracker order. -/
def WorkingFeatureCollection.diff (c : WorkingFeatureCollection) :
    Except String (List DiffRow) :=
  if c.tracked.length = 0 then .ok []
  else c.tracked.mapM (fun kv => diffRowOf c kv.1 kv.2)

/-! ## Association-list lemmas -/

lemma objGet_singleton {α : Type} (k : String) (v : α) : objGet [(k, v)] k = some v := by
  simp [objGet]

lemma objSet_singleton_same {α : Type} (k : String) (v w : α) :
    objSet [(k, v)] k w = [(k, w)] := by
  simp [objSet]

lemma objGet_objDelete {α : Type} (o : List (String × α)) (k : String) :
    objGet (objDelete o k) k = none := by
  induction o with
  | nil => rfl
  | cons kv rest ih =>
    by_cases hk : kv.1 = k
    · simpa [objDelete, List.filter_cons, hk] using ih
    · have hne : (kv.1 != k) = true := by simp [hk]
      simp only [objDelete, List.filter_cons, hne, if_true]
      simp only [objGet, List.find?]
      have : (kv.1 == k) = false := by simp [hk]
      rw [this]
      exact ih

lemma tcSetProperties_nil (k : String) (p : List (String × JsValue)) :
    tcSetProperties [] k p = [(k, .update none (some p))] := rfl

lemma tcSetDelete_nil (k : String) : tcSetDelete [] k = [(k, .delete)] := rfl

lemma tcSetDelete_single_update (k : String) (g : Option Geometry)
    (p : Option (List (String × JsValue))) :
    tcSetDelete [(k, .update g p)] k = [(k, .delete)] := by
  simp [tcSetDelete, objGet_singleton, objSet_singleton_same]

/-! ## Claim theorems on the working copy -/

def c4schema : List SchemaEntry :=
  [⟨"c1", "id", .integer, some 0, some 64, none⟩,
   ⟨"c2", "geom", .geometry, none, none, none⟩]

def c4feature : KartFeature :=
  ⟨"E1", [("id", .intNum 1)], ⟨"Point", [0, 0]⟩, [("name", .strV "a")]⟩

def c4baseline : DatasetFeature :=
  ⟨[("id", .intNum 1)], some c4feature, [("id", some (.intNum 1))]⟩

def c4dataset : Dataset := ⟨"ds4", c4schema, [("E1", c4baseline)]⟩

def c4wfc : WorkingFeatureCollection := ⟨c4dataset, none, ["id"], "geometry", []⟩

/-- C4 (code bug): the constructor leaves `geometryType` undefined — the
dominant-geometry-type initialisation is commented out — so `updateGeometry`
rejects every geometry, even one whose type matches the feature's current
geometry type, instead of succeeding and recording an Update. -/
theorem updateGeometry_always_rejects :
    WorkingFeatureCollection.init c4dataset = .ok c4wfc ∧
    c4wfc.geometryType = none ∧
    (WorkingFeatureCollection.get (fun _ => true) c4wfc "E1").map
      (fun f => f.geometry.type) = some "Point" ∧
    WorkingFeatureCollection.updateGeometry (fun _ => true) c4wfc "E1" ⟨"Point", [1, 1]⟩ =
      .error "Cannot change geometry of type \"Point\" for feature with ID \"E1\" in a collection with geometry type \"undefined\"." := by
  refine ⟨by decide, rfl, by decide, by decide⟩

def c5schema : List SchemaEntry :=
  [⟨"c1", "id", .integer, some 0, some 64, none⟩,
   ⟨"c2", "geom", .geometry, none, none, none⟩,
   ⟨"c3", "name", .text, none, none, none⟩]

def c5dataset : Dataset := ⟨"ds5", c5schema, []⟩

def c5wfc : WorkingFeatureCollection := ⟨c5dataset, none, ["id"], "geometry", []⟩

def c5insert : KartFeature :=
  ⟨"E5", [("id", .intNum 1)], ⟨"Point", [3, 4]⟩, [("name", .strV "x")]⟩

/-- C5 (code bug): the duplicated `includes('geom')` condition in the
constructor makes `primaryGeometryKey` the literal string `"geometry"`
whenever the schema has a geometry column named `geom`, so the single `++`
diff object for an Insert emits the key `"geometry"` — not the name of the
schema's first geometry entry (`"geom"`). -/
theorem diff_insert_emits_wrong_geometry_key :
    WorkingFeatureCollection.init c5dataset = .ok c5wfc ∧
    c5wfc.primaryGeometryKey = "geometry" ∧
    (c5schema.find? (fun e => e.dataType == .geometry)).map (fun e => e.name) =
      some "geom" ∧
    (WorkingFeatureCollection.diff
        { c5wfc with tracked := [("E5", .insert c5insert)] }).map
      (fun rows => rows.map DiffRow.keys) = .ok [["id", "geometry", "name"]] := by
  refine ⟨by decide, rfl, by decide, by decide⟩

lemma wfcGet_insert (compliant : KartFeature → Bool) (c : WorkingFeatureCollection)
    (eid : String) (f : KartFeature)
    (ht : objGet c.tracked eid = some (.insert f)) (hc : compliant f = true) :
    WorkingFeatureCollection.get compliant c eid = some f := by
  unfold WorkingFeatureCollection.get
  rw [ht]
  simp [hc]

/-- C10: `updateProperties` on an eid whose tracked change is an Insert with
no corresponding baseline feature throws the inconsistent-state error
before touching the tracker (in this pure embedding an error result leaves
the collection unchanged, mirroring the JS throw that precedes
`setProperties`). -/
theorem updateProperties_insert_no_baseline (compliant : KartFeature → Bool)
    (c : WorkingFeatureCollection) (eid : String) (props : List (String × JsValue))
    (merge : Bool) (f : KartFeature)
    (ht : objGet c.tracked eid = some (.insert f)) (hc : compliant f = true)
    (hb : objGet c.dataset.features eid = none) :
    WorkingFeatureCollection.updateProperties compliant c eid props merge =
      .error s!"Inconsistent state: attempted to update properties for feature with ID \"{eid}\" but could not find the original feature in the dataset." := by
  unfold WorkingFeatureCollection.updateProperties
  rw [wfcGet_insert compliant c eid f ht hc]
  simp [hb]

def c10feature : KartFeature := ⟨"N1", [("id", .intNum 9)], ⟨"Point", [0, 0]⟩, []⟩

def c10wfc : WorkingFeatureCollection :=
  ⟨⟨"ds10", c5schema, []⟩, none, ["id"], "geometry", [("N1", .insert c10feature)]⟩

/-- Witness for `updateProperties_insert_no_baseline` on a concrete
collection whose only tracked change is an Insert with no baseline row. -/
theorem updateProperties_insert_no_baseline_witness :
    WorkingFeatureCollection.updateProperties (fun _ => true) c10wfc "N1"
      [("name", .strV "z")] true =
      .error s!"Inconsistent state: attempted to update properties for feature with ID \"N1\" but could not find the original feature in the dataset." :=
  updateProperties_insert_no_baseline (fun _ => true) c10wfc "N1"
    [("name", .strV "z")] true c10feature (by decide) rfl (by decide)

lemma updateProperties_ok_shape (compliant : KartFeature → Bool)
    (c c' : WorkingFeatureCollection) (eid : String)
    (props : List (String × JsValue)) (merge : Bool)
    (h : WorkingFeatureCollection.updateProperties compliant c eid props merge = .ok c') :
    c'.dataset = c.dataset ∧ c'.primaryKeys = c.primaryKeys ∧
      c'.primaryGeometryKey = c.primaryGeometryKey ∧
      (c'.tracked = c.tracked ∨ ∃ p, c'.tracked = tcSetProperties c.tracked eid p) := by
  unfold WorkingFeatureCollection.updateProperties at h
  split at h
  · exact Except.noConfusion h
  · dsimp only at h
    repeat' split at h
    all_goals
      first
        | exact Except.noConfusion h
        | (cases h; exact ⟨rfl, rfl, rfl, .inr ⟨_, rfl⟩⟩)
        | (cases h; exact ⟨rfl, rfl, rfl, .inl rfl⟩)

lemma delete_ok_shape (compliant : KartFeature → Bool)
    (c c' : WorkingFeatureCollection) (eid : String)
    (h : WorkingFeatureCollection.delete compliant c eid = .ok c') :
    c' = { c with tracked := tcSetDelete c.tracked eid } := by
  unfold WorkingFeatureCollection.delete at h
  split at h
  · exact Except.noConfusion h
  · cases h
    rfl

/-- C6: `delete` fails when the eid is absent from the overlaid view; on an
Insert-tracked eid it removes the tracker entry (net zero); and
`updateProperties` followed by `delete` on a baseline feature leaves a
tracker whose diff is exactly one `--` row (and in particular no `+` row)
for that eid. -/
theorem delete_tracker_semantics (compliant : KartFeature → Bool)
    (c : WorkingFeatureCollection) (eid : String) :
    (WorkingFeatureCollection.has compliant c eid = false →
      WorkingFeatureCollection.delete compliant c eid =
        .error s!"Feature with ID \"{eid}\" not found.") ∧
    (∀ f : KartFeature, objGet c.tracked eid = some (.insert f) → compliant f = true →
      ∃ c', WorkingFeatureCollection.delete compliant c eid = .ok c' ∧
        objGet c'.tracked eid = none) ∧
    (∀ (df : DatasetFeature) (f : KartFeature) (props : List (String × JsValue))
        (c₁ c₂ : WorkingFeatureCollection),
      c.tracked = [] →
      objGet c.dataset.features eid = some df →
      df.geo = some f →
      compliant f = true →
      WorkingFeatureCollection.updateProperties compliant c eid props true = .ok c₁ →
      WorkingFeatureCollection.delete compliant c₁ eid = .ok c₂ →
      ∃ d, WorkingFeatureCollection.diff c₂ = .ok [DiffRow.del d]) := by
  refine ⟨?_, ?_, ?_⟩
  · intro h
    unfold WorkingFeatureCollection.delete
    rw [if_pos h]
  · intro f ht hc
    have hget := wfcGet_insert compliant c eid f ht hc
    have hhas : WorkingFeatureCollection.has compliant c eid = true := by
      unfold WorkingFeatureCollection.has
      rw [hget]
      rfl
    refine ⟨{ c with tracked := tcSetDelete c.tracked eid }, ?_, ?_⟩
    · unfold WorkingFeatureCollection.delete
      rw [if_neg (by rw [hhas]; exact fun hcon => Bool.noConfusion hcon)]
    · show objGet (tcSetDelete c.tracked eid) eid = none
      unfold tcSetDelete
      rw [ht]
      exact objGet_objDelete c.tracked eid
  · intro df f props c₁ c₂ htr hb hgeo hc hup hdel
    obtain ⟨hds, -, -, hcase⟩ := updateProperties_ok_shape compliant c c₁ eid props true hup
    have hc2 := delete_ok_shape compliant c₁ c₂ eid hdel
    have htracked2 : c₂.tracked = [(eid, .delete)] := by
      rw [hc2]
      show tcSetDelete c₁.tracked eid = _
      rcases hcase with h1 | ⟨p, h2⟩
      · rw [h1, htr]
        exact tcSetDelete_nil eid
      · rw [h2, htr, tcSetProperties_nil]
        exact tcSetDelete_single_update eid none (some p)
    have hds2 : c₂.dataset = c.dataset := by
      rw [hc2]
      exact hds
    refine ⟨c.primaryKeys.foldl
      (fun d key => objSet d key (.v (nullCo (objGet df.ids key)))) [], ?_⟩
    unfold WorkingFeatureCollection.diff
    rw [htracked2]
    rw [if_neg (by simp)]
    have hrow : diffRowOf c₂ eid .delete =
        .ok (.del (c₂.primaryKeys.foldl
          (fun d key => objSet d key (.v (nullCo (objGet df.ids key)))) [])) := by
      unfold diffRowOf
      rw [hds2, hb]
    have hpk2 : c₂.primaryKeys = c.primaryKeys := by
      rw [hc2]
      exact (updateProperties_ok_shape compliant c c₁ eid props true hup).2.1
    rw [hpk2] at hrow
    simp only [List.mapM_cons, List.mapM_nil, hrow, bind, Except.bind, pure, Except.pure]

/-- Concrete run for `delete_tracker_semantics`: a one-feature baseline,
`updateProperties` then `delete`, diffing to a single `--` row. -/
def c6feature : KartFeature :=
  ⟨"X", [("id", .intNum 7)], ⟨"Point", [0, 0]⟩, [("name", .strV "a")]⟩

def c6baseline : DatasetFeature :=
  ⟨[("id", .intNum 7)], some c6feature, [("id", some (.intNum 7))]⟩

def c6dataset : Dataset := ⟨"ds6", c5schema, [("X", c6baseline)]⟩

def c6wfc : WorkingFeatureCollection := ⟨c6dataset, none, ["id"], "geometry", []⟩

def c6afterUpdate : WorkingFeatureCollection :=
  { c6wfc with tracked := [("X", .update none (some [("name", .strV "b")]))] }

def c6afterDelete : WorkingFeatureCollection :=
  { c6wfc with tracked := [("X", .delete)] }

/-- Witness for `delete_tracker_semantics`: the update-then-delete scenario
evaluated on a concrete dataset. -/
theorem delete_tracker_semantics_witness :
    ∃ d, WorkingFeatureCollection.diff c6afterDelete = .ok [DiffRow.del d] :=
  (delete_tracker_semantics (fun _ => true) c6wfc "X").2.2 c6baseline c6feature
    [("name", .strV "b")] c6afterUpdate c6afterDelete rfl (by decide) rfl rfl
    (by decide) (by decide)

/-! ## Feature.getInteger (src/unnamed/part_005, lines 574-615) -/

structure ValidIntegerProp where
  ok : Bool
  data : Option Int
  isPrimaryKey : Bool
deriving DecidableEq, Repr

def isDigits (l : List Char) : Bool := l.all (fun c => c.isDigit)

/-- The regex `^-?\d+$`. -/
def matchesIntRe (s : String) : Bool :=
  match s.toList with
  | [] => false
  | c :: rest => if c = '-' then !rest.isEmpty && isDigits rest else isDigits (c :: rest)

/-- The regex `^-?\d+n$`. -/
def matchesBigIntRe (s : String) : Bool :=
  match s.toList.getLast? with
  | some c => c == 'n' && matchesIntRe (String.mk s.toList.dropLast)
  | none => false

def digitsToNat (l : List Char) : Nat :=
  l.foldl (fun acc c => acc * 10 + (c.toNat - 48)) 0

def isJsSpace (c : Char) : Bool :=
  c == ' ' || c == '\t' || c == '\n' || c == '\r'

/-- `String.prototype.trim`. -/
def jsTrim (s : String) : String :=
  String.mk (((s.toList.dropWhile isJsSpace).reverse.dropWhile isJsSpace).reverse)

/-- `BigInt(s)` on a string matching `-?\d+`. -/
def jsBigIntParse (s : String) : Int :=
  match s.toList with
  | c :: rest => if c = '-' then -(digitsToNat rest : Int) else (digitsToNat (c :: rest) : Int)
  | [] => 0

/-- `Feature.getInteger`: a non-integer column raises `TypeMismatchError`;
null/undefined pass through with null data; bigint values, integer numbers,
and trimmed strings matching `-?\d+n` or `-?\d+` coerce to a bigint; any
other value yields an `{ok: false}` InvalidValue result.  The column's
declared bit `size` is never consulted. -/
def getInteger (entryType : DataType) (isPrimaryKey : Bool) (value : JsValue) :
    Except String ValidIntegerProp :=
  if entryType ≠ .integer then .error "TypeMismatchError"
  else
    match value with
    | .undef => .ok ⟨true, none, isPrimaryKey⟩
    | .null => .ok ⟨true, none, isPrimaryKey⟩
    | .bigIntV n => .ok ⟨true, some n, isPrimaryKey⟩
    | .intNum n => .ok ⟨true, some n, isPrimaryKey⟩
    | .strV s =>
        if matchesBigIntRe (jsTrim s) then
          .ok ⟨true, some (jsBigIntParse (String.mk (jsTrim s).toList.dropLast)), isPrimaryKey⟩
        else if matchesIntRe (jsTrim s) then
          .ok ⟨true, some (jsBigIntParse (jsTrim s)), isPrimaryKey⟩
        else .ok ⟨false, none, isPrimaryKey⟩
    | _ => .ok ⟨false, none, isPrimaryKey⟩

/-- The signed range the specification attaches to a declared bit size. -/
def fitsSignedBits (bits : Nat) (v : Int) : Prop :=
  -((2 : Int) ^ (bits - 1)) ≤ v ∧ v < (2 : Int) ^ (bits - 1)

instance (bits : Nat) (v : Int) : Decidable (fitsSignedBits bits v) := by
  unfold fitsSignedBits
  infer_instance

def c7entry : SchemaEntry := ⟨"c7", "count", .integer, none, some 8, none⟩

/-- C7 counterexample: on an integer column declared with `size = 8`, the
value 300 — far outside the signed 8-bit range — is accepted with
`{ok: true}` and returned unchanged; no constraint violation is reported. -/
theorem getInteger_range_counterexample :
    c7entry.size = some 8 ∧
    getInteger c7entry.dataType false (.bigIntV 300) = .ok ⟨true, some 300, false⟩ ∧
    ¬fitsSignedBits 8 300 := by
  refine ⟨rfl, rfl, by decide⟩

/-- C7 (amended): `getInteger` accepts a bigint, an integer number, or a
trimmed string matching `-?\d+` or `-?\d+n`, and returns `{ok: true}` with
the parsed value regardless of the column's declared bit size; other value
shapes give `{ok: false}`. -/
theorem getInteger_coercions (e : SchemaEntry) (isPK : Bool) (he : e.dataType = .integer) :
    (∀ n : Int, getInteger e.dataType isPK (.bigIntV n) = .ok ⟨true, some n, isPK⟩) ∧
    (∀ n : Int, getInteger e.dataType isPK (.intNum n) = .ok ⟨true, some n, isPK⟩) ∧
    (∀ s : String, (matchesIntRe (jsTrim s) || matchesBigIntRe (jsTrim s)) = true →
      ∃ n : Int, getInteger e.dataType isPK (.strV s) = .ok ⟨true, some n, isPK⟩) ∧
    getInteger e.dataType isPK .null = .ok ⟨true, none, isPK⟩ ∧
    getInteger e.dataType isPK .nonIntNum = .ok ⟨false, none, isPK⟩ ∧
    (∀ b : Bool, getInteger e.dataType isPK (.boolV b) = .ok ⟨false, none, isPK⟩) := by
  have hne : ¬e.dataType ≠ DataType.integer := by simp [he]
  refine ⟨?_, ?_, ?_, ?_, ?_, ?_⟩
  · intro n
    unfold getInteger
    rw [if_neg hne]
  · intro n
    unfold getInteger
    rw [if_neg hne]
  · intro s hs
    unfold getInteger
    rw [if_neg hne]
    dsimp only
    by_cases hbig : matchesBigIntRe (jsTrim s) = true
    · exact ⟨jsBigIntParse (String.mk (jsTrim s).toList.dropLast), by rw [if_pos hbig]⟩
    · have hint : matchesIntRe (jsTrim s) = true := by
        rcases Bool.or_eq_true_iff.mp hs with h | h
        · exact h
        · exact absurd h hbig
      exact ⟨jsBigIntParse (jsTrim s), by rw [if_neg hbig, if_pos hint]⟩
  · unfold getInteger
    rw [if_neg hne]
  · unfold getInteger
    rw [if_neg hne]
  · intro b
    unfold getInteger
    rw [if_neg hne]

/-- Witness for `getInteger_coercions` at a concrete integer column. -/
theorem getInteger_coercions_witness :
    getInteger c7entry.dataType true (.intNum (-5)) = .ok ⟨true, some (-5), true⟩ ∧
    (∃ n : Int, getInteger c7entry.dataType true (.strV " -7n ") = .ok ⟨true, some n, true⟩) :=
  ⟨(getInteger_coercions c7entry true rfl).2.1 (-5),
    (getInteger_coercions c7entry true rfl).2.2.1 " -7n " (by decide)⟩

/-! ## RawFeature.toObject (current variant, carried inside serializer.ts)

Projects a raw feature onto the current schema: legend-ordered raw values
become a `columnId → value` map, primary and non-primary entries of the
current schema pick values by column id (`?? null`), dropped legend columns
are reported, the eid is computed from the id values, and `metadata.crs`
implements the CRS fallback chain. -/

structure CRS where
  identifier : String
  wkt : String
deriving DecidableEq, Repr

structure RawFeature where
  legendId : String
  primaryKeys : List JsValue
  properties : List JsValue
deriving DecidableEq, Repr

structure RawMetadata where
  geometryColumn : Option (String × String)
  crs : Option String
  droppedKeys : List String
  eid : String
deriving DecidableEq, Repr

structure RawObject where
  ids : List (String × JsValue)
  properties : List (String × JsValue)
  metadata : RawMetadata
deriving DecidableEq, Repr

def RawFeature.toObject (pack : List JsValue → List Nat) (sha2 : List Nat → List Nat)
    (legends : List Legend) (schema : List SchemaEntry) (ps : PathStructure)
    (crss : List CRS) (rf : RawFeature) : Except String RawObject :=
  match legends.find? (fun l => l.id == rf.legendId) with
  | none =>
      let lid := rf.legendId
      .error s!"Legend with id {lid} not found"
  | some legend =>
      let rawFeatureData := legend.columnIds.foldl
        (fun m entry =>
          objSet m entry.1
            (if entry.2.1 then rf.primaryKeys.getD entry.2.2 .undef
             else rf.properties.getD entry.2.2 .undef)) []
      let processedKeyIds :=
        ((schema.filter (fun e => e.isPrimary)).map (fun e => e.id)) ++
          ((schema.filter (fun e => !e.isPrimary)).map (fun e => e.id))
      let ids := (schema.filter (fun e => e.isPrimary)).foldl
        (fun m e => objSet m e.name (nullCo (objGet rawFeatureData e.id))) []
      let properties := (schema.filter (fun e => !e.isPrimary)).foldl
        (fun m e => objSet m e.name (nullCo (objGet rawFeatureData e.id))) []
      let featureGeometryColumn := schema.find? (fun e => e.dataType == .geometry)
      (PathStructure.getEid pack sha2 ps (ids.map (fun kv => kv.2))).map (fun eid =>
        { ids := ids
          properties := properties
          metadata :=
            { geometryColumn := featureGeometryColumn.map (fun e => (e.id, e.name))
              crs :=
                match featureGeometryColumn with
                | none => none
                | some col =>
                    match col.geometryCrs with
                    | none => some "EPSG:4326"
                    | some gc =>
                        (crss.find? (fun crs => crs.identifier == gc)).map
                          (fun crs => crs.identifier)
              droppedKeys := (legend.columnIds.filter
                (fun entry => !processedKeyIds.contains entry.1)).map (fun entry => entry.1)
              eid := eid } })

lemma except_map_ok {ε α β : Type} (f : α → β) (e : Except ε α) (b : β)
    (h : e.map f = .ok b) : ∃ a, e = .ok a ∧ f a = b := by
  cases e with
  | error err => exact Except.noConfusion h
  | ok a => exact ⟨a, rfl, Except.ok.inj h⟩

lemma find_identifier (crss : List CRS) (gc : String) :
    (crss.find? (fun crs => crs.identifier == gc)).map (fun crs => crs.identifier) =
      if crss.any (fun crs => crs.identifier == gc) then some gc else none := by
  induction crss with
  | nil => rfl
  | cons c rest ih =>
    by_cases h : c.identifier = gc
    · simp [List.find?, List.any_cons, h]
    · have hb : (c.identifier == gc) = false := by simp [h]
      simp only [List.find?, List.any_cons, hb, Bool.false_or]
      exact ih

/-- C8: when the schema has a geometry column, `metadata.crs` is
`"EPSG:4326"` if that column specifies no `geometryCrs`, `null` if the
specified identifier is absent from the CRS registry, and the identifier
itself otherwise. -/
theorem toObject_crs_fallback (pack : List JsValue → List Nat) (sha2 : List Nat → List Nat)
    (legends : List Legend) (schema : List SchemaEntry) (ps : PathStructure)
    (crss : List CRS) (rf : RawFeature) (col : SchemaEntry) (obj : RawObject)
    (hcol : schema.find? (fun e => e.dataType == .geometry) = some col)
    (hok : RawFeature.toObject pack sha2 legends schema ps crss rf = .ok obj) :
    obj.metadata.crs =
      match col.geometryCrs with
      | none => some "EPSG:4326"
      | some gc => if crss.any (fun crs => crs.identifier == gc) then some gc else none := by
  unfold RawFeature.toObject at hok
  split at hok
  · exact Except.noConfusion hok
  · dsimp only at hok
    rw [hcol] at hok
    obtain ⟨eid, -, hobj⟩ := except_map_ok _ _ _ hok
    rw [← hobj]
    show (match col.geometryCrs with
      | none => some "EPSG:4326"
      | some gc =>
          (crss.find? (fun crs : CRS => crs.identifier == gc)).map
            (fun crs : CRS => crs.identifier)) = _
    cases col.geometryCrs with
    | none => rfl
    | some gc => exact find_identifier crss gc

def c8geomcol : SchemaEntry := ⟨"c2", "geom", .geometry, none, none, some "EPSG:2193"⟩

def c8schema : List SchemaEntry :=
  [⟨"c1", "id", .integer, some 0, some 64, none⟩, c8geomcol]

def c8legends : List Legend := [⟨"L8", ["c1"], ["c2"]⟩]

def c8ps : PathStructure := ⟨.msgpackHash, 64, 1, .base64⟩

def c8crss : List CRS := [⟨"EPSG:2193", "PROJCS[...]"⟩]

def c8rf : RawFeature := ⟨"L8", [.intNum 1], [.geomV ⟨"Point", [0, 0]⟩]⟩

/-- Witness for `toObject_crs_fallback`: a registered `geometryCrs` comes
through as the identifier itself. -/
theorem toObject_crs_fallback_witness :
    (RawFeature.toObject msgpackEncode sha256Stub c8legends c8schema c8ps c8crss c8rf).map
      (fun o => o.metadata.crs) = .ok (some "EPSG:2193") := by
  cases hok : RawFeature.toObject msgpackEncode sha256Stub c8legends c8schema c8ps c8crss c8rf with
  | error e =>
      have hIsOk : exceptIsOk
          (RawFeature.toObject msgpackEncode sha256Stub c8legends c8schema c8ps c8crss c8rf) =
          true := by decide
      rw [hok] at hIsOk
      exact Bool.noConfusion hIsOk
  | ok obj =>
      have hcrs := toObject_crs_fallback msgpackEncode sha256Stub c8legends c8schema c8ps
        c8crss c8rf c8geomcol obj (by decide) hok
      show Except.ok obj.metadata.crs = _
      rw [hcrs]
      rfl

/-! ## deepFreeze (src/lib/utils/deepFreeze.ts)

A JS-object runtime model: objects carry an extensibility flag and
insertion-ordered own properties with `{writable, configurable}`
descriptors.  `strictSet`/`strictDelete` are ECMAScript strict-mode
assignment and `delete` (assignment throws on a non-writable property or a
new key on a non-extensible object; `delete` throws exactly on a
non-configurable own property).  `WorkingFeatureCollection.toGeoJSON`
returns `deepFreeze` of the materialized FeatureCollection object, so the
claim is settled on `deepFreezeVal` applied to such an object tree. -/

structure PropDesc where
  writable : Bool
  configurable : Bool
deriving DecidableEq, Repr

mutual
inductive JsObj where
  | prim (v : JsValue)
  | obj (extensible : Bool) (props : JsProps)
deriving Repr

inductive JsProps where
  | nil
  | cons (k : String) (d : PropDesc) (v : JsObj) (rest : JsProps)
deriving Repr
end

def propsGet : JsProps → String → Option (PropDesc × JsObj)
  | .nil, _ => none
  | .cons k d v rest, key => if k == key then some (d, v) else propsGet rest key

def propsDelete : JsProps → String → JsProps
  | .nil, _ => .nil
  | .cons k d v rest, key =>
      if k == key then propsDelete rest key else .cons k d v (propsDelete rest key)

def propsSetVal : JsProps → String → JsObj → JsProps
  | .nil, _, _ => .nil
  | .cons k d v rest, key, nv =>
      if k == key then .cons k d nv rest else .cons k d v (propsSetVal rest key nv)

def jsObjHas : JsObj → String → Bool
  | .prim _, _ => false
  | .obj _ props, k => (propsGet props k).isSome

def propsAllFrozen : JsProps → Bool
  | .nil => true
  | .cons _ d _ rest => !d.configurable && !d.writable && propsAllFrozen rest

/-- `Object.isFrozen`. -/
def isFrozenShallow (ext : Bool) (props : JsProps) : Bool :=
  !ext && propsAllFrozen props

/-- The descriptor rewrite deepFreeze applies to one own property:
non-configurable properties are skipped; a `toJSON` key on a still
extensible object is re-defined `{writable: true, configurable: true}`;
every other configurable property becomes
`{writable: false, configurable: true}` — note `configurable` stays true. -/
def freezeDesc (ext : Bool) (k : String) (d : PropDesc) : PropDesc :=
  if !d.configurable then d
  else if k == "toJSON" && ext then ⟨true, true⟩
  else ⟨false, true⟩

mutual
/-- `deepFreeze`: skips already frozen objects, rewrites each configurable
own property's descriptor, recursively freezes object-valued properties,
then prevents extensions.  (The WeakSet guards shared/cyclic references,
which a tree model does not have.) -/
def deepFreezeVal : JsObj → JsObj
  | .prim v => .prim v
  | .obj ext props =>
      if isFrozenShallow ext props then .obj ext props
      else .obj false (deepFreezeProps ext props)

def deepFreezeProps (ext : Bool) : JsProps → JsProps
  | .nil => .nil
  | .cons k d v rest =>
      .cons k (freezeDesc ext k d) (deepFreezeVal v) (deepFreezeProps ext rest)
end

/-- Strict-mode `obj[k] = v`. -/
def strictSet (o : JsObj) (k : String) (newv : JsObj) : Except String JsObj :=
  match o with
  | .prim _ => .error "TypeError: not an object"
  | .obj ext props =>
      match propsGet props k with
      | some (d, _) =>
          if d.writable then .ok (.obj ext (propsSetVal props k newv))
          else .error "TypeError: Cannot assign to read only property"
      | none =>
          if ext then .ok (.obj ext (.cons k ⟨true, true⟩ newv props))
          else .error "TypeError: Cannot add property, object is not extensible"

/-- Strict-mode `delete obj[k]`. -/
def strictDelete (o : JsObj) (k : String) : Except String JsObj :=
  match o with
  | .prim _ => .error "TypeError: not an object"
  | .obj ext props =>
      match propsGet props k with
      | some (d, _) =>
          if d.configurable then .ok (.obj ext (propsDelete props k))
          else .error "TypeError: Cannot delete property"
      | none => .ok (.obj ext props)

/-- A materialized FeatureCollection as `toGeoJSON` builds it: a fresh,
fully extensible object tree. -/
def c9featureCollection : JsObj :=
  .obj true (.cons "type" ⟨true, true⟩ (.prim (.strV "FeatureCollection"))
    (.cons "features" ⟨true, true⟩
      (.obj true (.cons "0" ⟨true, true⟩
        (.obj true (.cons "geometry" ⟨true, true⟩
          (.obj true (.cons "type" ⟨true, true⟩ (.prim (.strV "Point")) .nil))
          .nil))
        .nil))
      .nil))

/-- C9 (code bug): `deepFreeze` defines every configurable property with
`configurable: true`, so strict-mode `delete` on the frozen `toGeoJSON`
output succeeds and actually removes the property (while assignment does
throw, because `writable` is set to false). -/
theorem deepFreeze_allows_delete :
    (strictDelete (deepFreezeVal c9featureCollection) "type").map
      (fun o => jsObjHas o "type") = .ok false ∧
    exceptIsOk (strictSet (deepFreezeVal c9featureCollection) "type"
      (.prim (.strV "x"))) = false :=
  ⟨rfl, rfl⟩

end KartJs
